import Mathlib

/-!
# Shallow embedding of `src/Disney/DisneyBase.js`

This file embeds the schedule cache, schedule parser, window selector,
wait-time assembler and access-credential cache of the wdwJS Disney base
park module, and proves/refutes the frozen claims about them.

## Modelling conventions

* Instants are integers: milliseconds since the epoch, in the venue's
  time zone (time-zone conversion and the display `timeFormat` are
  abstracted away; a formatted time string stands for its instant).
* Calendar dates are `Nat` day numbers; the formatted `YYYY-MM-DD`
  string of a date stands for its day number.
* JavaScript objects used as string-keyed dictionaries (`times` in
  `ParseScheduleData`, the per-resort `schedule`, the module-level
  `scheduleCache`) are embedded as insertion-ordered association
  lists: property assignment replaces the value at an existing key in
  place, otherwise appends; `for (var k in obj)` enumerates the keys
  in that order (the keys in play — `YYYY-MM-DD` strings and ride
  ids — are not array indices, so JS insertion order applies).
* Fallible JS code (property access on `undefined`) is embedded with
  `Except`.
-/

namespace WdwJS

/-- Milliseconds per calendar day. -/
def msPerDay : Int := 86400000

/-- Instant of `moment().tz(tz).startOf("day")` for day number `d`: midnight opening the day. -/
def startOfDay (d : Nat) : Int := (d : Int) * msPerDay

/-- Instant of `moment().tz(tz).endOf("day")` for day number `d`: 23:59:59.999, the last
millisecond of the day. -/
def endOfDay (d : Nat) : Int := startOfDay d + msPerDay - 1

/-- Model of `moment#endOf()` called *without* a unit argument, as at
`DisneyBase.js:313` (`day.endOf()`): moment normalizes the `undefined`
unit and returns the moment unchanged — the identity. -/
def momentEndOfNoUnit (t : Int) : Int := t

/-- Model of `moment#startOf()` called without a unit argument, as at
`DisneyBase.js:312` (`day.startOf()`): also the identity. -/
def momentStartOfNoUnit (t : Int) : Int := t

/-- A "special" (non-standard-type) schedule entry attached to a day's
standard window (`dayObj` built at `DisneyBase.js:295-301`: parsed
times plus the raw `type`; no `date`, no `special` field of its own). -/
structure SpecialWindow where
  openingTime : Int
  closingTime : Int
  type : String
deriving Repr, DecidableEq

/-- A day's operating window as stored in the schedule cache.  `date` is
`none` once the field has been `delete`d (or for windows built without
one); `special` is `[]` for the synthesized closed windows of
`DisneyBase.js:310-315`, which in JS simply lack the property — nothing
ever reads or appends to it afterwards, so `[]` is observably equal. -/
structure DayWindow where
  date : Option Nat
  openingTime : Int
  closingTime : Int
  type : String
  special : List SpecialWindow
deriving Repr, DecidableEq

/-- One raw entry of `sched.schedule.schedules` in the upstream payload:
`{date, startTime, endTime, type}`.  `startTime`/`endTime` are the
parsed `"HH:mm"` strings: millisecond offsets within the day. -/
structure RawScheduleEntry where
  date : Nat
  startTime : Nat
  endTime : Nat
  type : String
deriving Repr, DecidableEq

/-- One per-attraction entry of `data.activities`.  `schedules = none`
models a missing `sched.schedule` or `sched.schedule.schedules`
(`DisneyBase.js:261`). -/
structure RawActivity where
  id : String
  schedules : Option (List RawScheduleEntry)
deriving Repr, DecidableEq

/-- The raw schedule payload; `activities = none` models a payload with
no top-level `activities` field (`DisneyBase.js:251`). -/
structure SchedulePayload where
  activities : Option (List RawActivity)
deriving Repr, DecidableEq

/-- The list `openingTypes` (`DisneyBase.js:257`): the standard operating types. -/
def openingTypes : List String := ["Operating", "Closed", "Refurbishment"]

/-- The list `self._expectedRideStatusStrings` (`DisneyBase.js:50`). -/
def expectedRideStatusStrings : List String := ["Operating", "Closed", "Down"]

/-- Model of `CleanRideID` (`DisneyBase.js:359-365`): the regex `^([^;]+)` captures
the maximal non-`;` prefix; if it fails to match (empty string or a
leading `;`) the id is returned unchanged. -/
def CleanRideID (ride_id : String) : String :=
  let capture := String.mk (ride_id.toList.takeWhile (fun c => c != ';'))
  if capture = "" then ride_id else capture

/-- Model of `ParseScheduleEntry` (`DisneyBase.js:340-355`): combine the entry's
date with its start/end time strings; if the closing instant is before
the opening instant, advance it by one day.  Returns
`(openingTime, closingTime)` as instants. -/
def ParseScheduleEntry (entry : RawScheduleEntry) : Int × Int :=
  let openingTime : Int := startOfDay entry.date + entry.startTime
  let closingTime : Int := startOfDay entry.date + entry.endTime
  if closingTime < openingTime then (openingTime, closingTime + msPerDay)
  else (openingTime, closingTime)

/-! ## Insertion-ordered association lists (JS object semantics) -/

/-- Lookup `obj[k]`: first binding of `k`, if any. -/
def lookupKey {α β : Type} [DecidableEq α] : List (α × β) → α → Option β
  | [], _ => none
  | p :: l, k => if p.1 = k then some p.2 else lookupKey l k

/-- Assignment `obj[k] = v`: replace the value at `k` in place if present, else
append the new binding (JS insertion order for non-index keys). -/
def insertKey {α β : Type} [DecidableEq α] : List (α × β) → α → β → List (α × β)
  | [], k, v => [(k, v)]
  | p :: l, k, v => if p.1 = k then (k, v) :: l else p :: insertKey l k v

/-- Mutate the value stored at `k` in place, if present; no-op otherwise. -/
def updateKey {α β : Type} [DecidableEq α] (f : β → β) : List (α × β) → α → List (α × β)
  | [], _ => []
  | p :: l, k => if p.1 = k then (p.1, f p.2) :: l else p :: updateKey f l k

/-! ## `ParseScheduleData` (`DisneyBase.js:250-338`) -/

/-- The `DayWindow` built for a standard entry (`DisneyBase.js:274-280`):
parsed times, an empty `special` list, the entry's date, and the type
mapped so that anything other than `"Operating"` means `"Closed"`. -/
def mkStandardWindow (entry : RawScheduleEntry) : DayWindow :=
  { date := some entry.date
    openingTime := (ParseScheduleEntry entry).1
    closingTime := (ParseScheduleEntry entry).2
    type := if entry.type = "Operating" then "Operating" else "Closed"
    special := [] }

/-- The object appended to a day's `special` list for a non-standard
entry (`DisneyBase.js:294-298`): parsed times with the raw type. -/
def mkSpecialWindow (entry : RawScheduleEntry) : SpecialWindow :=
  { openingTime := (ParseScheduleEntry entry).1
    closingTime := (ParseScheduleEntry entry).2
    type := entry.type }

/-- First pass of `ParseScheduleData` (`DisneyBase.js:266-282`): index the
standard-type entries whose date lies in `[startDay, endDay]` by date.
`day.isAfter(endOf-day endDate)` is `date > endDay`; `day.isBefore(startDate)`
is `date < startDay`. -/
def addStandardTimes (startDay endDay : Nat) :
    List RawScheduleEntry → List (Nat × DayWindow) → List (Nat × DayWindow)
  | [], times => times
  | entry :: rest, times =>
    if entry.type ∈ openingTypes then
      if entry.date > endDay ∨ entry.date < startDay then
        addStandardTimes startDay endDay rest times
      else
        addStandardTimes startDay endDay rest
          (insertKey times entry.date (mkStandardWindow entry))
    else
      addStandardTimes startDay endDay rest times

/-- Second pass (`DisneyBase.js:285-303`): append each in-range
non-standard entry to the `special` list of the standard window sharing
its date; silently dropped when no standard window exists for the date. -/
def addSpecialTimes (startDay endDay : Nat) :
    List RawScheduleEntry → List (Nat × DayWindow) → List (Nat × DayWindow)
  | [], times => times
  | entry :: rest, times =>
    if entry.type ∉ openingTypes then
      if entry.date > endDay ∨ entry.date < startDay then
        addSpecialTimes startDay endDay rest times
      else
        addSpecialTimes startDay endDay rest
          (updateKey (fun w => { w with special := w.special ++ [mkSpecialWindow entry] })
            times entry.date)
    else
      addSpecialTimes startDay endDay rest times

/-- The synthesized window for a date with no standard entry
(`DisneyBase.js:310-315`).  The loop variable `day` holds the start of
the day; `day.startOf()` and `day.endOf()` are called without a unit and
are both identities, so the synthesized `closingTime` equals the
*start* of the day, not its end. -/
def closedAllDay (d : Nat) : DayWindow :=
  { date := some d
    openingTime := momentStartOfNoUnit (startOfDay d)
    closingTime := momentEndOfNoUnit (startOfDay d)
    type := "Closed"
    special := [] }

/-- The day numbers of `[startDay, endDay]` inclusive, ascending —
the iteration order of the back-fill loop (`DisneyBase.js:306`). -/
def rangeDays (startDay endDay : Nat) : List Nat :=
  List.range' startDay (endDay + 1 - startDay)

/-- Third pass (`DisneyBase.js:305-317`): synthesize a closed window for
every date of the range with no entry (or an entry with no `date`). -/
def fillMissingDays : List Nat → List (Nat × DayWindow) → List (Nat × DayWindow)
  | [], times => times
  | d :: days, times =>
    match lookupKey times d with
    | some w =>
      if w.date.isSome then fillMissingDays days times
      else fillMissingDays days (insertKey times d (closedAllDay d))
    | none => fillMissingDays days (insertKey times d (closedAllDay d))

/-- The full per-attraction `times` table built by `ParseScheduleData`
for one activity's schedule entries. -/
def buildTimes (entries : List RawScheduleEntry) (startDay endDay : Nat) :
    List (Nat × DayWindow) :=
  fillMissingDays (rangeDays startDay endDay)
    (addSpecialTimes startDay endDay entries
      (addStandardTimes startDay endDay entries []))

/-- The loop of `DisneyBase.js:259-327`: build each activity's time
array (`times` values in key-insertion order, `DisneyBase.js:319-323`)
and store it under the cleaned activity id. -/
def buildSchedule (startDay endDay : Nat) :
    List RawActivity → List (String × List DayWindow) → List (String × List DayWindow)
  | [], schedule => schedule
  | act :: rest, schedule =>
    match act.schedules with
    | none => buildSchedule startDay endDay rest schedule
    | some entries =>
      buildSchedule startDay endDay rest
        (insertKey schedule (CleanRideID act.id)
          ((buildTimes entries startDay endDay).map Prod.snd))

/-- One resort's entry in the module-level `scheduleCache`
(`DisneyBase.js:330-334`). -/
structure CacheEntry where
  expires : Int
  data : List (String × List DayWindow)
deriving Repr, DecidableEq

/-- Model of `ParseScheduleData` (`DisneyBase.js:250-338`), acting on the cached
entry for the current resort.  Returns the (possibly replaced) cache
entry and the callback result: an error when the payload has no
`activities` field — with the cache untouched — otherwise `ok` with the
parsed windows of `park_id` (which may be absent). -/
def ParseScheduleData (payload : SchedulePayload) (startDay endDay : Nat) (now : Int)
    (cache : Option CacheEntry) (park_id : String) :
    Option CacheEntry × Except String (Option (List DayWindow)) :=
  match payload.activities with
  | none => (cache, .error "No schedule data returned")
  | some acts =>
    let schedule := buildSchedule startDay endDay acts []
    let entry : CacheEntry := { expires := now + 1000 * 60 * 60 * 12, data := schedule }
    (some entry, .ok (lookupKey schedule park_id))

/-- Freshness test of `CacheScheduleData` (`DisneyBase.js:206-211`):
a cached entry exists and `expires >= Date.now()`. -/
def cacheFresh (cache : Option CacheEntry) (now : Int) : Bool :=
  match cache with
  | some entry => entry.expires ≥ now
  | none => false

/-- Model of `CacheScheduleData` (`DisneyBase.js:205-231`).  `fetchResult` is the
outcome of the upstream request the function would issue when the cache
is stale; the returned `Bool` records whether that request was issued.
The callback's success payload (a handle to the cache) is collapsed
to `Unit`. -/
def CacheScheduleData (cache : Option CacheEntry) (now : Int) (startDay endDay : Nat)
    (park_id : String) (fetchResult : Except String SchedulePayload) :
    Option CacheEntry × Bool × Except String Unit :=
  if cacheFresh cache now then (cache, false, .ok ())
  else
    match fetchResult with
    | .error e => (cache, true, .error ("Error fetching park schedule: " ++ e))
    | .ok payload =>
      match ParseScheduleData payload startDay endDay now cache park_id with
      | (cache2, .error e) => (cache2, true, .error e)
      | (cache2, .ok _) => (cache2, true, .ok ())

/-! ## `GetWaitTimes` (`DisneyBase.js:54-163`) -/

/-- Test `timeNow.isBetween(w.openingTime, w.closingTime)`
(`DisneyBase.js:124`): moment's default inclusivity is `()` —
*exclusive* at both endpoints. -/
def isActiveAt (now : Int) (w : DayWindow) : Bool :=
  decide (w.openingTime < now ∧ now < w.closingTime)

/-- Test `time.date == dateToday` (`DisneyBase.js:121`); a window whose `date`
was deleted compares unequal to any date string. -/
def isTodays (today : Nat) (w : DayWindow) : Bool :=
  decide (w.date = some today)

/-- The scan of `DisneyBase.js:119-127` over an attraction's cached
windows, also tracking each hit's position in the array (JS keeps a
*reference* to the array element, so the later `delete` needs the
position).  Returns `(todaysSchedule, obj.schedule)`: the last window
dated `today` and the last window whose open interval contains `now`. -/
def scheduleScanAux (now : Int) (today : Nat) :
    List DayWindow → Nat → Option (Nat × DayWindow) → Option (Nat × DayWindow) →
    Option (Nat × DayWindow) × Option (Nat × DayWindow)
  | [], _, todays, active => (todays, active)
  | w :: rest, j, todays, active =>
    scheduleScanAux now today rest (j + 1)
      (if isTodays today w then some (j, w) else todays)
      (if isActiveAt now w then some (j, w) else active)

/-- The fallback chain of `DisneyBase.js:129-142`: the currently-active
window if the scan found one (its `openingTime`/`closingTime` — formatted
time strings — are always truthy), else today's window, else the first
window, else `null`. -/
def selectScheduleIdx (windows : List DayWindow) (now : Int) (today : Nat) :
    Option (Nat × DayWindow) :=
  match scheduleScanAux now today windows 0 none none with
  | (todays, active) =>
    match active with
    | some p => some p
    | none =>
      match todays with
      | some p => some p
      | none =>
        match windows with
        | [] => none
        | w :: _ => some (0, w)

/-- The window the `GetWaitTimes` selection logic reports, before the
`date` field is deleted. -/
def selectSchedule (windows : List DayWindow) (now : Int) (today : Nat) :
    Option DayWindow :=
  (selectScheduleIdx windows now today).map Prod.snd

/-- The `ride.waitTime.fastPass` sub-object. -/
structure FastPassInfo where
  available : Bool
deriving Repr, DecidableEq

/-- The nested `ride.waitTime` live-status object. -/
structure RawWaitTime where
  postedWaitMinutes : Option Nat
  status : Option String
  fastPass : Option FastPassInfo
deriving Repr, DecidableEq

/-- One entry of the live wait-times payload (`data.entries[i]`). -/
structure LiveEntry where
  id : Option String
  name : Option String
  type : Option String
  waitTime : Option RawWaitTime
deriving Repr, DecidableEq

/-- The per-attraction record pushed onto `rides`
(`DisneyBase.js:86-156`). -/
structure RideRecord where
  id : String
  name : String
  waitTime : Nat
  active : Bool
  status : String
  fastPass : Bool
  schedule : Option DayWindow
deriving Repr, DecidableEq

/-- The full-day window synthesized when the attraction has no cached
schedule (`DisneyBase.js:148-152`); here `endOf("day")` *is* given its
unit.  The JS object carries no `date` or `special` fields and neither
is read afterwards. -/
def allDayWindow (today : Nat) (active : Bool) : DayWindow :=
  { date := none
    openingTime := startOfDay today
    closingTime := endOfDay today
    type := if active then "Operating" else "Closed"
    special := [] }

/-- The body of the `GetWaitTimes` entry loop (`DisneyBase.js:81-158`)
for one live entry, given the resort's cached schedule entry.  Returns
the record built for the entry (`none` when the entry is skipped by the
guard at line 84) together with the possibly *mutated* cache entry:
`obj.schedule` aliases the cached window object, so
`delete obj.schedule.date` (line 145) removes the `date` field from the
window stored in the cache.  A live entry that passes the guard but has
no `waitTime` object makes line 107 (`ride.waitTime.fastPass`) read a
property of `undefined`: a thrown `TypeError`, embedded as `.error`. -/
def processRide (ride : LiveEntry) (rcache : Option CacheEntry) (now : Int) (today : Nat) :
    Except String (Option RideRecord × Option CacheEntry) :=
  match ride.id, ride.name, ride.type with
  | some rawId, some rideName, some rideType =>
    if rawId ≠ "" ∧ rideName ≠ "" ∧ rideType = "Attraction" then
      let rid := CleanRideID rawId
      let waitMins : Nat :=
        match ride.waitTime with
        | some wt =>
          match wt.postedWaitMinutes with
          | some m => m
          | none => 0
        | none => 0
      let active : Bool :=
        match ride.waitTime with
        | some wt => wt.status = some "Operating"
        | none => false
      let status : String :=
        match ride.waitTime with
        | some wt =>
          match wt.status with
          | some s => if s ∈ expectedRideStatusStrings then s else "Closed"
          | none => "Closed"
        | none => "Closed"
      match ride.waitTime with
      | none => .error "TypeError: cannot read fastPass of undefined"
      | some wt =>
        let fastPass : Bool :=
          match wt.fastPass with
          | some fp => fp.available
          | none => false
        match rcache with
        | some ce =>
          match lookupKey ce.data rid with
          | some windows =>
            match selectScheduleIdx windows now today with
            | none =>
              .ok (some { id := rid, name := rideName, waitTime := waitMins,
                          active := active, status := status, fastPass := fastPass,
                          schedule := none }, some ce)
            | some (j, w) =>
              if w.date.isSome then
                let w2 := { w with date := none }
                let windows2 := windows.set j w2
                let ce2 := { ce with data := updateKey (fun _ => windows2) ce.data rid }
                .ok (some { id := rid, name := rideName, waitTime := waitMins,
                            active := active, status := status, fastPass := fastPass,
                            schedule := some w2 }, some ce2)
              else
                .ok (some { id := rid, name := rideName, waitTime := waitMins,
                            active := active, status := status, fastPass := fastPass,
                            schedule := some w }, some ce)
          | none =>
            .ok (some { id := rid, name := rideName, waitTime := waitMins,
                        active := active, status := status, fastPass := fastPass,
                        schedule := some (allDayWindow today active) }, some ce)
        | none =>
          .ok (some { id := rid, name := rideName, waitTime := waitMins,
                      active := active, status := status, fastPass := fastPass,
                      schedule := some (allDayWindow today active) }, none)
    else .ok (none, rcache)
  | _, _, _ => .ok (none, rcache)

/-! ## Credential cache (`DisneyBase.js:368-433`) -/

/-- The cached access token (`self._accessToken`). -/
structure AccessToken where
  token : String
  expires : Int
deriving Repr, DecidableEq

/-- The parsed JSON body of the token response; `none` fields model
absent properties. -/
structure TokenResponse where
  access_token : Option String
  expires_in : Option Int
deriving Repr, DecidableEq

/-- Handling by `FetchAccessToken` of a well-formed (HTTP 200, valid
JSON) token response (`DisneyBase.js:419-431`): require a truthy
`access_token` and `expires_in` (`""` and `0` are falsy), compute
`expire_time = now + max(expires_in - 30, 5) * 1000`, and reject an
`expires_in` below 5. -/
def FetchAccessToken (data : TokenResponse) (now : Int) : Except String (String × Int) :=
  match data.access_token, data.expires_in with
  | some token, some expires_in =>
    if token ≠ "" ∧ expires_in ≠ 0 then
      let expire_time := now + max (expires_in - 30) 5 * 1000
      if expires_in < 5 then .error "Expirey time is very low"
      else .ok (token, expire_time)
    else .error "Invalid body response for access token"
  | _, _ => .error "Invalid body response for access token"

/-- Model of `GetAccessToken` (`DisneyBase.js:368-395`): return the cached token
while `now < expires`; otherwise null the cache, fetch
(`fetchResult` = the parsed response of the request it would issue), and
cache the fresh credential on success.  Returns the new `_accessToken`
and the callback outcome. -/
def GetAccessToken (cached : Option AccessToken) (now : Int) (fetchResult : TokenResponse) :
    Option AccessToken × Except String String :=
  let live : Option AccessToken :=
    match cached with
    | some t => if t.expires ≤ now then none else some t
    | none => none
  match live with
  | some t => (some t, .ok t.token)
  | none =>
    match FetchAccessToken fetchResult now with
    | .error e => (none, .error e)
    | .ok (token, expires) => (some { token := token, expires := expires }, .ok token)

/-! ## Window-selection characterization (claim C2)

`specSelect` below is *not* translated from the source: it renders the
(amended) specification wording of the Window Selector as a reference
function, to be compared with `selectSchedule` from the source. -/

/-- Fallback `orElseOpt a b`: `a` if it holds a value, else `b`. -/
def orElseOpt {α : Type} (a b : Option α) : Option α :=
  match a with
  | some x => some x
  | none => b

/-- Modelled from the amended claim wording: the last window of the
sequence satisfying `p`, if any. -/
def lastMatching (p : DayWindow → Bool) : List DayWindow → Option DayWindow
  | [] => none
  | w :: rest =>
    match lastMatching p rest with
    | some x => some x
    | none => if p w then some w else none

/-- Modelled from the amended claim wording: the last window whose open
interval `(openingTime, closingTime)` strictly contains `now` wins;
otherwise the last window dated `today`; otherwise the first window;
`none` only for an empty sequence. -/
def specSelect (windows : List DayWindow) (now : Int) (today : Nat) : Option DayWindow :=
  orElseOpt (lastMatching (isActiveAt now) windows)
    (orElseOpt (lastMatching (isTodays today) windows) windows.head?)

theorem orElseOpt_none {α : Type} (a : Option α) : orElseOpt a none = a := by
  cases a <;> rfl

/-- The active-window register of the scan is the last window (of those
scanned) whose open interval contains `now`, falling back to the
register's initial value. -/
theorem scanAux_active (now : Int) (today : Nat) (ws : List DayWindow) :
    ∀ (j : Nat) (t a : Option (Nat × DayWindow)),
      ((scheduleScanAux now today ws j t a).2).map Prod.snd
        = orElseOpt (lastMatching (isActiveAt now) ws) (a.map Prod.snd) := by
  induction ws with
  | nil => intro j t a; rfl
  | cons w rest ih =>
    intro j t a
    simp only [scheduleScanAux, lastMatching]
    rw [ih]
    cases h : lastMatching (isActiveAt now) rest with
    | some x => simp [orElseOpt]
    | none =>
      cases hp : isActiveAt now w <;> simp [orElseOpt, hp]

/-- The `todaysSchedule` register of the scan is the last window dated
`today`, falling back to the register's initial value. -/
theorem scanAux_todays (now : Int) (today : Nat) (ws : List DayWindow) :
    ∀ (j : Nat) (t a : Option (Nat × DayWindow)),
      ((scheduleScanAux now today ws j t a).1).map Prod.snd
        = orElseOpt (lastMatching (isTodays today) ws) (t.map Prod.snd) := by
  induction ws with
  | nil => intro j t a; rfl
  | cons w rest ih =>
    intro j t a
    simp only [scheduleScanAux, lastMatching]
    rw [ih]
    cases h : lastMatching (isTodays today) rest with
    | some x => simp [orElseOpt]
    | none =>
      cases hp : isTodays today w <;> simp [orElseOpt, hp]

/-- C2 (amended).  The window selection in `GetWaitTimes` returns: the
last window whose *open* interval `(openingTime, closingTime)` — both
endpoints excluded, per `moment#isBetween`'s default — contains `now`,
if one exists; otherwise the last window dated `today`, if any;
otherwise the first window of a non-empty sequence; and `null` exactly
for an empty sequence.  In particular, yesterday's window spilling past
midnight to 02:00 is still selected at 01:00 in preference to today's. -/
theorem selectSchedule_eq_specSelect (ws : List DayWindow) (now : Int) (today : Nat) :
    selectSchedule ws now today = specSelect ws now today := by
  have ha := scanAux_active now today ws 0 none none
  have ht := scanAux_todays now today ws 0 none none
  simp only [Option.map_none'] at ha ht
  rw [orElseOpt_none] at ha ht
  unfold selectSchedule selectScheduleIdx specSelect
  rcases hscan : scheduleScanAux now today ws 0 none none with ⟨t, a⟩
  rw [hscan] at ha ht
  simp only at ha ht
  cases a with
  | some p =>
    simp only [Option.map_some'] at ha
    simp only [orElseOpt, ← ha, Option.map_some']
  | none =>
    simp only [Option.map_none'] at ha
    cases t with
    | some q =>
      simp only [Option.map_some'] at ht
      simp only [orElseOpt, ← ha, ← ht, Option.map_some']
    | none =>
      simp only [Option.map_none'] at ht
      simp only [orElseOpt, ← ha, ← ht]
      cases ws <;> rfl

/-- C2 counterexample to the claim as stated.  The claim uses the
half-open interval `[openingTime, closingTime)`, so with
`w1 = {date: day 9, open 100, close 200}`, `w2 = {date: day 10,
open 300, close 400}`, `now = 100` (equal to `w1.openingTime`) and
`today = 10`, it requires `w1` (whose half-open interval contains
`now`) to be returned; the code's `isBetween` check is exclusive at
both ends, so it returns today's window `w2` instead. -/
theorem selectSchedule_boundary_counterexample :
    (100 ≥ (DayWindow.mk (some 9) 100 200 "Operating" []).openingTime
      ∧ 100 < (DayWindow.mk (some 9) 100 200 "Operating" []).closingTime)
    ∧ selectSchedule
        [DayWindow.mk (some 9) 100 200 "Operating" [],
         DayWindow.mk (some 10) 300 400 "Operating" []] 100 10
      = some (DayWindow.mk (some 10) 300 400 "Operating" []) := by
  constructor
  · constructor <;> decide
  · rfl

/-! ## Concrete scenarios for the cache-mutation and crash claims -/

/-- A live entry for ride `ride1`, reporting as operating. -/
def mutationRide : LiveEntry :=
  { id := some "ride1", name := some "R", type := some "Attraction",
    waitTime := some { postedWaitMinutes := some 5, status := some "Operating",
                       fastPass := none } }

/-- A cached schedule for `ride1`: yesterday's window first, today's second. -/
def mutationCache : CacheEntry :=
  { expires := 0,
    data := [("ride1",
      [{ date := some 9, openingTime := 300, closingTime := 400,
         type := "Operating", special := [] },
       { date := some 10, openingTime := 100, closingTime := 200,
         type := "Operating", special := [] }])] }

/-- C1 (code bug).  Running the `GetWaitTimes` assembly over a cached
schedule mutates the cache: `obj.schedule` aliases the cached
`DayWindow`, so `delete obj.schedule.date` (`DisneyBase.js:145`) strips
the `date` field from the window stored in the cache.  Concretely, with
`now = 50` inside no window and `today = day 10`, the first query
selects today's window and erases its date (`ce1 ≠ mutationCache`), and
a second query over the same cached schedule — no longer finding a
window dated today — selects a different window than the first did. -/
theorem getWaitTimes_mutates_schedule_cache :
    ∃ rec1 ce1 rec2 ce2,
      processRide mutationRide (some mutationCache) 50 10 = .ok (some rec1, some ce1)
      ∧ ce1 ≠ mutationCache
      ∧ processRide mutationRide (some ce1) 50 10 = .ok (some rec2, some ce2)
      ∧ rec2.schedule ≠ rec1.schedule := by
  refine ⟨_, _, _, _, rfl, by decide, rfl, by decide⟩

/-- C3 (code bug).  Parsing a payload whose attraction has no in-range
standard entries back-fills every date of `[startDay, endDay]` with
exactly one synthesized `Closed` window — but because
`DisneyBase.js:313` calls `day.endOf()` *without* the `"day"` unit (a
moment no-op), the synthesized `closingTime` equals the start of the
day, not its end as the claim states. -/
theorem backfilled_window_closing_eval :
    ParseScheduleData { activities := some [{ id := "A", schedules := some [] }] }
        5 6 1000 none "A"
      = (some { expires := 1000 + 1000 * 60 * 60 * 12,
                data := [("A", [closedAllDay 5, closedAllDay 6])] },
         .ok (some [closedAllDay 5, closedAllDay 6]))
    ∧ (closedAllDay 5).closingTime = startOfDay 5
    ∧ (closedAllDay 5).closingTime ≠ endOfDay 5 := by
  refine ⟨rfl, rfl, by decide⟩

/-- C4 (code bug).  A live attraction entry with no `waitTime` object
crashes the assembly: `DisneyBase.js:107` reads `ride.waitTime.fastPass`
without the `ride.waitTime &&` guard the surrounding lines use, throwing
a `TypeError` instead of producing a record with falsy
`fastPassAvailable`. -/
theorem missing_waittime_typeerror (rcache : Option CacheEntry) (now : Int) (today : Nat) :
    processRide { id := some "80010190", name := some "Ride",
                  type := some "Attraction", waitTime := none } rcache now today
      = .error "TypeError: cannot read fastPass of undefined" := rfl

/-- C6.  A raw entry whose end time is chronologically before its start
time on the same nominal date gets its closing instant advanced by
exactly one day: the produced `closingTime` is the end-time offset on
day `D+1` — inside day `D+1` — and chronologically after the produced
`openingTime`. -/
theorem parseScheduleEntry_overnight (entry : RawScheduleEntry)
    (hstart : entry.startTime < 86400000)
    (hlt : entry.endTime < entry.startTime) :
    (ParseScheduleEntry entry).2 = startOfDay (entry.date + 1) + entry.endTime
    ∧ (ParseScheduleEntry entry).1 < (ParseScheduleEntry entry).2
    ∧ startOfDay (entry.date + 1) ≤ (ParseScheduleEntry entry).2
    ∧ (ParseScheduleEntry entry).2 < startOfDay (entry.date + 2) := by
  have hlt' : (entry.endTime : Int) < (entry.startTime : Int) := by exact_mod_cast hlt
  have hstart' : (entry.startTime : Int) < 86400000 := by exact_mod_cast hstart
  have hcond : startOfDay entry.date + (entry.endTime : Int)
      < startOfDay entry.date + (entry.startTime : Int) := by omega
  have hPSE : ParseScheduleEntry entry
      = (startOfDay entry.date + (entry.startTime : Int),
         startOfDay entry.date + (entry.endTime : Int) + msPerDay) := by
    simp only [ParseScheduleEntry]
    rw [if_pos hcond]
  rw [hPSE]
  simp only [startOfDay, msPerDay]
  have hend : (0 : Int) ≤ (entry.endTime : Int) := Int.ofNat_nonneg _
  refine ⟨by push_cast; ring, by omega, by push_cast; omega, by push_cast; omega⟩

/-- Witness for `parseScheduleEntry_overnight`: the spec's example
`{date: D, startTime: "22:00", endTime: "02:00"}` with `D = day 5`. -/
theorem parseScheduleEntry_overnight_witness :
    (ParseScheduleEntry { date := 5, startTime := 79200000, endTime := 7200000,
                          type := "Operating" }).2
        = startOfDay 6 + 7200000
    ∧ (ParseScheduleEntry { date := 5, startTime := 79200000, endTime := 7200000,
                            type := "Operating" }).1
        < (ParseScheduleEntry { date := 5, startTime := 79200000, endTime := 7200000,
                                type := "Operating" }).2 :=
  ⟨(parseScheduleEntry_overnight _ (by decide) (by decide)).1,
   (parseScheduleEntry_overnight _ (by decide) (by decide)).2.1⟩

/-- When no unexpired credential is cached, `GetAccessToken` always
falls through to the fetch path. -/
theorem getAccessToken_stale_eq (cached : Option AccessToken) (now : Int)
    (fetchResult : TokenResponse)
    (hstale : ∀ t, cached = some t → t.expires ≤ now) :
    GetAccessToken cached now fetchResult
      = match FetchAccessToken fetchResult now with
        | .error e => (none, .error e)
        | .ok (token, expires) => (some { token := token, expires := expires }, .ok token) := by
  cases cached with
  | none => rfl
  | some t =>
    have h := hstale t rfl
    simp only [GetAccessToken, if_pos h]

/-- C7.  For a well-formed token response carrying a (truthy) token and
an `expires_in`, fetched with no live cached credential: an
`expires_in` below 5 makes the operation fail and leaves nothing
cached, while `expires_in ≥ 5` caches the credential with
`expires = now + max(expires_in - 30, 5) * 1000` milliseconds. -/
theorem getAccessToken_expiry (token : String) (expires_in now : Int)
    (cached : Option AccessToken)
    (htok : token ≠ "")
    (hstale : ∀ t, cached = some t → t.expires ≤ now) :
    (expires_in < 5 →
      (GetAccessToken cached now { access_token := some token, expires_in := some expires_in }).1
          = none
      ∧ ∃ msg,
        (GetAccessToken cached now { access_token := some token, expires_in := some expires_in }).2
          = .error msg)
    ∧ (5 ≤ expires_in →
      GetAccessToken cached now { access_token := some token, expires_in := some expires_in }
        = (some { token := token, expires := now + max (expires_in - 30) 5 * 1000 },
           .ok token)) := by
  rw [getAccessToken_stale_eq cached now _ hstale]
  constructor
  · intro hlt
    by_cases h0 : expires_in = 0
    · subst h0
      simp [FetchAccessToken]
    · simp [FetchAccessToken, htok, h0, hlt]
  · intro hge
    have h0 : expires_in ≠ 0 := by omega
    have hnlt : ¬ expires_in < 5 := by omega
    simp [FetchAccessToken, htok, h0, hnlt]

/-- Witness for `getAccessToken_expiry`: a fresh fetch returning
`(token "tkn", expires_in 100)` at `now = 1000` caches
`expires = 1000 + 70 * 1000`. -/
theorem getAccessToken_expiry_witness :
    GetAccessToken none 1000 { access_token := some "tkn", expires_in := some 100 }
      = (some { token := "tkn", expires := 1000 + max (100 - 30) 5 * 1000 }, .ok "tkn") :=
  (getAccessToken_expiry "tkn" 100 1000 none (by decide) (fun t h => by cases h)).2
    (by norm_num)

/-- C8.  When the raw schedule payload lacks the top-level `activities`
field, `ParseScheduleData` reports a parse error to the caller and
returns the venue's cache entry exactly as it was — neither its data
nor its expiry is touched (`DisneyBase.js:251` returns before the cache
write at lines 330-334). -/
theorem parseScheduleData_missing_activities (payload : SchedulePayload)
    (startDay endDay : Nat) (now : Int) (cache : Option CacheEntry) (park_id : String)
    (h : payload.activities = none) :
    ParseScheduleData payload startDay endDay now cache park_id
      = (cache, .error "No schedule data returned") := by
  obtain ⟨acts⟩ := payload
  simp only at h
  subst h
  rfl

/-- Witness for `parseScheduleData_missing_activities`: a prior cached
snapshot survives the failed parse unchanged. -/
theorem parseScheduleData_missing_activities_witness :
    ParseScheduleData { activities := none } 5 6 0
        (some { expires := 77, data := [("p", [])] }) "p"
      = (some { expires := 77, data := [("p", [])] }, .error "No schedule data returned") :=
  parseScheduleData_missing_activities _ _ _ _ _ _ rfl

/-- C9.  While the cached venue entry is unexpired
(`expires >= Date.now()`), `CacheScheduleData` issues no upstream fetch
and leaves the cache unchanged; once stale, a successful fetch-and-parse
installs a new entry whose expiry is the refresh time plus 12 hours. -/
theorem cacheScheduleData_freshness (cache : Option CacheEntry) (now : Int)
    (startDay endDay : Nat) (park_id : String)
    (fetchResult : Except String SchedulePayload) :
    (cacheFresh cache now = true →
      CacheScheduleData cache now startDay endDay park_id fetchResult
        = (cache, false, .ok ()))
    ∧ (∀ payload acts, cacheFresh cache now = false → fetchResult = .ok payload →
        payload.activities = some acts →
        ∃ d, CacheScheduleData cache now startDay endDay park_id fetchResult
          = (some { expires := now + 1000 * 60 * 60 * 12, data := d }, true, .ok ())) := by
  constructor
  · intro hfresh
    unfold CacheScheduleData
    rw [if_pos hfresh]
  · intro payload acts hstale hfetch hacts
    have hp : ParseScheduleData payload startDay endDay now cache park_id
        = (some { expires := now + 1000 * 60 * 60 * 12,
                  data := buildSchedule startDay endDay acts [] },
           .ok (lookupKey (buildSchedule startDay endDay acts []) park_id)) := by
      unfold ParseScheduleData
      rw [hacts]
    refine ⟨buildSchedule startDay endDay acts [], ?_⟩
    unfold CacheScheduleData
    rw [if_neg (by simp [hstale]), hfetch]
    simp only [hp]

/-- Witness for `cacheScheduleData_freshness`: a fresh entry is served
without a fetch, and a stale one is replaced with expiry `now + 12h`. -/
theorem cacheScheduleData_freshness_witness :
    (CacheScheduleData (some { expires := 500, data := [] }) 400 5 6 "p"
        (.ok { activities := some [] })
      = (some { expires := 500, data := [] }, false, .ok ()))
    ∧ ∃ d, CacheScheduleData (some { expires := 300, data := [] }) 400 5 6 "p"
        (.ok { activities := some [] })
      = (some { expires := 400 + 1000 * 60 * 60 * 12, data := d }, true, .ok ()) :=
  ⟨(cacheScheduleData_freshness _ _ _ _ _ _).1 (by decide),
   (cacheScheduleData_freshness _ _ _ _ _ _).2 { activities := some [] } []
     (by decide) rfl rfl⟩

/-- C10.  A live attraction entry (with a live-status object) whose
cleaned id has no entry in the cached venue schedule is assembled with a
synthesized full-day window — venue-local start of day to end of day —
typed `"Operating"` exactly when the record's `active` flag is set, and
the cache is left as it was. -/
theorem noSchedule_fallback (rawId rideName : String) (wt : RawWaitTime)
    (ce : CacheEntry) (now : Int) (today : Nat)
    (hid : rawId ≠ "") (hname : rideName ≠ "")
    (hmiss : lookupKey ce.data (CleanRideID rawId) = none) :
    ∃ rec,
      processRide { id := some rawId, name := some rideName, type := some "Attraction",
                    waitTime := some wt } (some ce) now today
        = .ok (some rec, some ce)
      ∧ rec.active = decide (wt.status = some "Operating")
      ∧ rec.schedule = some (allDayWindow today rec.active) := by
  simp only [processRide]
  rw [if_pos ⟨hid, hname, trivial⟩, hmiss]
  exact ⟨_, rfl, rfl, rfl⟩

/-- Witness for `noSchedule_fallback`: an operating ride with a
suffix-carrying id and an empty schedule cache gets the full-day
`"Operating"` window. -/
theorem noSchedule_fallback_witness :
    ∃ rec,
      processRide { id := some "80010190;entityType=Attraction", name := some "Ride",
                    type := some "Attraction",
                    waitTime := some { postedWaitMinutes := none,
                                       status := some "Operating", fastPass := none } }
          (some { expires := 0, data := [] }) 50 10
        = .ok (some rec, some { expires := 0, data := [] })
      ∧ rec.active = decide ((some "Operating" : Option String) = some "Operating")
      ∧ rec.schedule = some (allDayWindow 10 rec.active) :=
  noSchedule_fallback _ _ _ _ _ _ (by decide) (by decide) rfl

/-! ## Ordering of the stored per-attraction sequence (claim C5)

The `times` table is a JS object; `for (var day in times)` yields its
keys in insertion order, so the stored sequence follows the payload's
standard-entry order, with back-filled dates appended afterwards.  The
lemmas below characterize when that order is ascending by date. -/

/-- The condition under which `ParseScheduleData`'s first pass indexes a
raw entry: standard type and date within `[startDay, endDay]`. -/
def isStandardInRange (startDay endDay : Nat) (entry : RawScheduleEntry) : Bool :=
  decide (entry.type ∈ openingTypes ∧ startDay ≤ entry.date ∧ entry.date ≤ endDay)

/-- Proof-internal normal form of the first pass: insert every entry of
the (pre-filtered) list unconditionally. -/
def insertStd : List RawScheduleEntry → List (Nat × DayWindow) → List (Nat × DayWindow)
  | [], times => times
  | entry :: rest, times =>
    insertStd rest (insertKey times entry.date (mkStandardWindow entry))

/-- The key/date projection of a `times` table: everything the back-fill
pass and the ordering statement depend on. -/
def dateProj (times : List (Nat × DayWindow)) : List (Nat × Option Nat) :=
  times.map (fun p => (p.1, p.2.date))

/-- The first pass only acts on the standard in-range entries, in payload
order. -/
theorem addStandardTimes_eq_filter (startDay endDay : Nat)
    (entries : List RawScheduleEntry) :
    ∀ acc, addStandardTimes startDay endDay entries acc
      = insertStd (entries.filter (isStandardInRange startDay endDay)) acc := by
  induction entries with
  | nil => intro acc; rfl
  | cons entry rest ih =>
    intro acc
    by_cases h1 : entry.type ∈ openingTypes
    · by_cases h2 : entry.date > endDay ∨ entry.date < startDay
      · have hf : isStandardInRange startDay endDay entry = false := by
          rw [isStandardInRange, decide_eq_false_iff_not]
          rintro ⟨-, hb, hc⟩
          omega
        simp only [addStandardTimes, if_pos h1, if_pos h2, List.filter_cons, hf]
        exact ih acc
      · have hf : isStandardInRange startDay endDay entry = true := by
          rw [isStandardInRange, decide_eq_true_eq]
          rw [not_or] at h2
          exact ⟨h1, by omega, by omega⟩
        simp only [addStandardTimes, if_pos h1, if_neg h2, List.filter_cons, hf,
          if_true, insertStd]
        exact ih _
    · have hf : isStandardInRange startDay endDay entry = false := by
        rw [isStandardInRange, decide_eq_false_iff_not]
        rintro ⟨ha, -, -⟩
        exact h1 ha
      simp only [addStandardTimes, if_neg h1, List.filter_cons, hf]
      exact ih acc

/-- Inserting an absent key appends the binding. -/
theorem insertKey_not_mem {α β : Type} [DecidableEq α] (l : List (α × β)) (k : α) (v : β)
    (h : k ∉ l.map Prod.fst) : insertKey l k v = l ++ [(k, v)] := by
  induction l with
  | nil => rfl
  | cons p rest ih =>
    simp only [List.map_cons, List.mem_cons, not_or] at h
    have hne : ¬ p.1 = k := fun hh => h.1 hh.symm
    simp only [insertKey, if_neg hne]
    rw [ih h.2]
    rfl

/-- Inserting entries with pairwise-distinct dates, none already
present, appends their bindings in order. -/
theorem insertStd_append (l : List RawScheduleEntry) :
    ∀ acc, (l.map RawScheduleEntry.date).Nodup →
      (∀ en ∈ l, en.date ∉ acc.map Prod.fst) →
      insertStd l acc = acc ++ l.map (fun en => (en.date, mkStandardWindow en)) := by
  induction l with
  | nil => intro acc _ _; simp [insertStd]
  | cons en rest ih =>
    intro acc hnd hmem
    simp only [List.map_cons, List.nodup_cons] at hnd
    have hen : en.date ∉ acc.map Prod.fst := hmem en (by simp)
    simp only [insertStd]
    rw [insertKey_not_mem _ _ _ hen]
    rw [ih (acc ++ [(en.date, mkStandardWindow en)]) hnd.2 ?_]
    · simp
    · intro en2 hen2
      have hmem2 := hmem en2 (List.mem_cons_of_mem _ hen2)
      have hne : en2.date ≠ en.date := by
        intro hh
        exact hnd.1 (hh ▸ List.mem_map_of_mem RawScheduleEntry.date hen2)
      simp [hmem2, hne]

/-- A value update that preserves `date` leaves the key/date projection
unchanged. -/
theorem updateKey_dateProj (f : DayWindow → DayWindow) (hf : ∀ w, (f w).date = w.date)
    (times : List (Nat × DayWindow)) (k : Nat) :
    dateProj (updateKey f times k) = dateProj times := by
  induction times with
  | nil => rfl
  | cons p rest ih =>
    simp only [updateKey]
    by_cases h : p.1 = k
    · rw [if_pos h]; simp [dateProj, hf]
    · rw [if_neg h]; simp only [dateProj, List.map_cons] at ih ⊢; rw [ih]

/-- The special-hours pass only appends to `special` lists: the key/date
projection is untouched. -/
theorem addSpecialTimes_dateProj (startDay endDay : Nat)
    (entries : List RawScheduleEntry) :
    ∀ times, dateProj (addSpecialTimes startDay endDay entries times) = dateProj times := by
  induction entries with
  | nil => intro times; rfl
  | cons en rest ih =>
    intro times
    by_cases h1 : en.type ∉ openingTypes
    · by_cases h2 : en.date > endDay ∨ en.date < startDay
      · simp only [addSpecialTimes, if_pos h1, if_pos h2]
        exact ih times
      · simp only [addSpecialTimes, if_pos h1, if_neg h2]
        rw [ih,
          updateKey_dateProj
            (fun w => { w with special := w.special ++ [mkSpecialWindow en] })
            (fun w => rfl)]
    · simp only [addSpecialTimes, if_neg h1]
      exact ih times

/-- Lookup commutes with the key/date projection. -/
theorem lookupKey_dateProj (times : List (Nat × DayWindow)) (k : Nat) :
    (lookupKey times k).map DayWindow.date = lookupKey (dateProj times) k := by
  induction times with
  | nil => rfl
  | cons p rest ih =>
    simp only [dateProj, List.map_cons, lookupKey]
    by_cases h : p.1 = k
    · rw [if_pos h, if_pos h]
      rfl
    · rw [if_neg h, if_neg h]
      exact ih

/-- Looking up a present key in a keyed image of a list hits it. -/
theorem lookupKey_map_self {β : Type} (g : Nat → β) (ds : List Nat) (k : Nat)
    (hk : k ∈ ds) :
    lookupKey (ds.map (fun d => (d, g d))) k = some (g k) := by
  induction ds with
  | nil => cases hk
  | cons d rest ih =>
    simp only [List.map_cons, lookupKey]
    by_cases h : d = k
    · subst h; rw [if_pos rfl]
    · rw [if_neg h]
      rcases List.mem_cons.mp hk with h2 | h2
      · exact absurd h2.symm h
      · exact ih h2

/-- The back-fill pass does nothing when every date of the range already
has a window carrying a date. -/
theorem fillMissingDays_noop (days : List Nat) :
    ∀ times, (∀ d ∈ days, ∃ w, lookupKey times d = some w ∧ w.date.isSome = true) →
      fillMissingDays days times = times := by
  induction days with
  | nil => intro times _; rfl
  | cons d rest ih =>
    intro times h
    obtain ⟨w, hw, hsome⟩ := h d (by simp)
    simp only [fillMissingDays, hw]
    rw [if_pos hsome]
    exact ih times (fun d2 hd2 => h d2 (List.mem_cons_of_mem _ hd2))

/-- C5 (amended).  The stored per-attraction sequence follows the
payload's standard-entry order (back-filled dates appended after); it is
ordered by ascending date whenever the in-range standard entries of the
payload list each date of `[startDay, endDay]` exactly once in ascending
order — in which case the sequence's dates are exactly
`startDay, …, endDay`. -/
theorem buildTimes_ordered (entries : List RawScheduleEntry) (startDay endDay : Nat)
    (H : (entries.filter (isStandardInRange startDay endDay)).map RawScheduleEntry.date
      = rangeDays startDay endDay) :
    ((buildTimes entries startDay endDay).map Prod.snd).map DayWindow.date
      = (rangeDays startDay endDay).map some := by
  have hnd : ((entries.filter (isStandardInRange startDay endDay)).map
      RawScheduleEntry.date).Nodup := by
    rw [H]; exact List.nodup_range' _ _
  have h1 : addStandardTimes startDay endDay entries []
      = (entries.filter (isStandardInRange startDay endDay)).map
          (fun en => (en.date, mkStandardWindow en)) := by
    rw [addStandardTimes_eq_filter]
    rw [insertStd_append _ [] hnd (by intro en _; simp)]
    simp
  have hproj1 : dateProj ((entries.filter (isStandardInRange startDay endDay)).map
        (fun en => (en.date, mkStandardWindow en)))
      = (rangeDays startDay endDay).map (fun d => (d, some d)) := by
    rw [← H]
    simp only [dateProj, List.map_map]
    rfl
  have hproj2 : dateProj (addSpecialTimes startDay endDay entries
        (addStandardTimes startDay endDay entries []))
      = (rangeDays startDay endDay).map (fun d => (d, some d)) := by
    rw [addSpecialTimes_dateProj, h1, hproj1]
  have hfill : buildTimes entries startDay endDay
      = addSpecialTimes startDay endDay entries
          (addStandardTimes startDay endDay entries []) := by
    unfold buildTimes
    apply fillMissingDays_noop
    intro d hd
    have hl2 : lookupKey (dateProj (addSpecialTimes startDay endDay entries
        (addStandardTimes startDay endDay entries []))) d = some (some d) := by
      rw [hproj2]; exact lookupKey_map_self _ _ _ hd
    have h6 := lookupKey_dateProj (addSpecialTimes startDay endDay entries
        (addStandardTimes startDay endDay entries [])) d
    rw [hl2] at h6
    rcases hl : lookupKey (addSpecialTimes startDay endDay entries
        (addStandardTimes startDay endDay entries [])) d with _ | w
    · rw [hl] at h6; cases h6
    · rw [hl] at h6
      simp only [Option.map_some', Option.some.injEq] at h6
      exact ⟨w, rfl, by rw [h6]; rfl⟩
  rw [hfill]
  have hsnd : ∀ T : List (Nat × DayWindow),
      (T.map Prod.snd).map DayWindow.date = (dateProj T).map Prod.snd := by
    intro T
    simp [dateProj, List.map_map]
  rw [hsnd, hproj2]
  simp [List.map_map]

/-- C5 counterexample to the claim as stated: a payload whose standard
entries appear in descending date order yields a stored sequence whose
dates are `[day 6, day 5]` — its keys `[6, 5]` are not sorted
ascending. -/
theorem scheduleOrder_counterexample :
    ((buildTimes
        [{ date := 6, startTime := 3600000, endTime := 7200000, type := "Operating" },
         { date := 5, startTime := 3600000, endTime := 7200000, type := "Operating" }]
        5 6).map Prod.snd).map DayWindow.date = [some 6, some 5]
    ∧ ¬ List.Sorted (· < ·) ((buildTimes
        [{ date := 6, startTime := 3600000, endTime := 7200000, type := "Operating" },
         { date := 5, startTime := 3600000, endTime := 7200000, type := "Operating" }]
        5 6).map Prod.fst) := by
  refine ⟨rfl, by decide⟩

/-- Witness for `buildTimes_ordered`: the same two entries in ascending
order produce the date-ascending sequence `[day 5, day 6]`. -/
theorem buildTimes_ordered_witness :
    ((buildTimes
        [{ date := 5, startTime := 3600000, endTime := 7200000, type := "Operating" },
         { date := 6, startTime := 3600000, endTime := 7200000, type := "Operating" }]
        5 6).map Prod.snd).map DayWindow.date = (rangeDays 5 6).map some :=
  buildTimes_ordered _ 5 6 (by decide)

end WdwJS
